import Mathlib

/-!
Verification of the temporal resampling / forecasting pipeline in
`src/functions.py` (solar-energy-forecasting).

Shallow embedding conventions:
* Timestamps are integers counting whole hours since a fixed epoch
  (the forecast source emits samples on exact hour boundaries, and every
  timestamp the program manipulates after `resample('H')` lies on an hour
  boundary).  The calendar day of a timestamp `t` is `t / 24` (floor, i.e.
  Euclidean division by the positive constant 24) and its hour of day is
  `t % 24`; the pandas `(Year, Month, Day)` triple of a timestamp is in
  bijection with this epoch day, so grouping / filtering by the calendar
  date is modelled as grouping / filtering by `t / 24`.
* Temperatures, irradiance and power are rationals (`ℚ`); a pandas `NaN`
  cell is `Option.none`.
* External collaborators (the OpenWeatherMap fetch, the NREL ceiling
  lookup `calculate_max_ghi`, the geocoder, and the pretrained LightGBM
  model) are out of scope per the spec; they enter as parameters
  (`maxGhi : ℚ`, `model : ModelFeatures → ℚ`).
* Fallible code returns `Except`: the only failure `prepare_weather_data`
  can produce is the pandas `KeyError` raised on line 44 when the input
  list is empty (an empty `pd.DataFrame([])` has no 'datetime' column).
-/

namespace Solar

/-- One forecast sample: `(dt_txt, main.temp)` from the OpenWeatherMap
payload, with the timestamp already parsed to hours since the epoch
(`pd.to_datetime` on line 44). -/
structure Sample where
  time : Int
  temp : ℚ
deriving DecidableEq, Repr

/-- One row of the hourly grid frame after the reindex on line 57:
a timestamp plus a possibly missing (`NaN`) temperature. -/
structure GridRow where
  time : Int
  temp : Option ℚ
deriving DecidableEq, Repr

/-- Hour of day of a timestamp, `datetime.dt.hour` (line 65). -/
def hourOf (t : Int) : ℕ := (t % 24).toNat

/-- Calendar day of a timestamp, standing in for the `(Year, Month, Day)`
triple (lines 81-87): the triple is a bijective function of this epoch
day, so equality of triples is equality of epoch days. -/
def dayOf (t : Int) : Int := t / 24

/-- Linear interpolation of a temperature at time `t` from the ascending
sample list: the value between the two samples surrounding `t`
(`resample('H').interpolate()`, line 46, evaluated at one grid hour).
For `t` at or before the first sample the first segment's line is used;
the function is only ever applied inside the sampled span. -/
def interpAt : List Sample → Int → ℚ
  | [], _ => 0
  | [s], _ => s.temp
  | s1 :: s2 :: rest, t =>
    if t ≤ s2.time then
      s1.temp + (s2.temp - s1.temp) * ((t : ℚ) - (s1.time : ℚ)) / ((s2.time : ℚ) - (s1.time : ℚ))
    else interpAt (s2 :: rest) t

/-- Line 46, `forecast_df.set_index('datetime').resample('H').interpolate()`:
up-sample the (ascending, hour-aligned) 3-hourly samples to an hourly
series running from the first to the last sample timestamp, linearly
interpolating the hours in between.  No cell of the result is missing. -/
def resampleHourly (l : List Sample) : List Sample :=
  match l with
  | [] => []
  | s :: _ =>
    let t0 := s.time
    let tN := (l.getLastD s).time
    (List.range (tN - t0 + 1).toNat).map (fun k => ⟨t0 + (k : Int), interpAt l (t0 + (k : Int))⟩)

/-- Line 50: shift every timestamp by the fixed UTC→local offset of -5 hours. -/
def shiftHours (l : List Sample) : List Sample :=
  l.map (fun s => ⟨s.time - 5, s.temp⟩)

/-- Line 53, `hourly_forecast_df['datetime'].min()`: the earliest timestamp
of the (shifted, resampled) series. -/
def minTime : List Sample → Int
  | [] => 0
  | s :: rest => (rest.map (·.time)).foldl min s.time

/-- The `start_date` of line 53 as a function of the raw input samples. -/
def prepStart (samples : List Sample) : Int :=
  minTime (shiftHours (resampleHourly samples))

/-- Line 58's cut-off, `datetime.strftime(end_date.date(), '%Y-%m-%d')`:
midnight of the calendar day containing `end_date = start + 8 days`
(in hours: `start + 192`). -/
def gridCut (start : Int) : Int := 24 * ((start + 192) / 24)

/-- Line 56, `pd.date_range(start=start_date, end=end_date, freq='H')`:
every hour from `start` to `start + 192` with BOTH endpoints included
(pandas `date_range` is inclusive of `end`), hence 193 points. -/
def fullRange (start : Int) : List Int :=
  (List.range 193).map (fun k : ℕ => start + (k : Int))

/-- Lines 56-58, the Grid Builder: the inclusive 193-point range, then the
filter keeping timestamps strictly before midnight of `end_date`'s day. -/
def gridTimes (start : Int) : List Int :=
  (fullRange start).filter (fun t => t < gridCut start)

/-- Line 57's `reindex`: exact-match lookup of a grid timestamp in the
resampled series; hours outside the sampled span become `NaN`. -/
def lookupTemp (l : List Sample) (t : Int) : Option ℚ :=
  (l.find? (fun s => s.time == t)).map (·.temp)

/-- Lines 56-58 combined: the hourly grid outer-joined against the shifted
resampled samples (`forecast_df_full`). -/
def joinGrid (start : Int) (known : List Sample) : List GridRow :=
  (gridTimes start).map (fun t => ⟨t, lookupTemp known t⟩)

/-- First known value of a column and its index, scanning left to right. -/
def firstKnown : List (Option ℚ) → Option (ℕ × ℚ)
  | [] => none
  | some v :: _ => some (0, v)
  | none :: rest => (firstKnown rest).map (fun p => (p.1 + 1, p.2))

/-- Last known value of a column and its index. -/
def lastKnown : List (Option ℚ) → Option (ℕ × ℚ)
  | [] => none
  | o :: rest =>
    match lastKnown rest with
    | some p => some (p.1 + 1, p.2)
    | none => o.map (fun v => (0, v))

/-- Nearest known value at or after position `i`. -/
def nextKnown (l : List (Option ℚ)) (i : ℕ) : Option (ℕ × ℚ) :=
  (firstKnown (l.drop i)).map (fun p => (i + p.1, p.2))

/-- Nearest known value at or before position `i`. -/
def prevKnown (l : List (Option ℚ)) (i : ℕ) : Option (ℕ × ℚ) :=
  lastKnown (l.take (i + 1))

/-- Cell `i` after `Series.interpolate(method='linear')` (line 68): a known
cell is kept; a gap between two known cells is filled on the straight line
through them (positions are equally spaced, which `method='linear'`
assumes); a trailing gap repeats the last known value (pandas interpolates
forward by default); a leading gap stays missing. -/
def interpCell (l : List (Option ℚ)) (i : ℕ) : Option ℚ :=
  match l.getD i none with
  | some v => some v
  | none =>
    match prevKnown l i, nextKnown l i with
    | some (j, a), some (k, b) =>
        some (a + (b - a) * ((i : ℚ) - (j : ℚ)) / ((k : ℚ) - (j : ℚ)))
    | some (_, a), none => some a
    | none, _ => none

/-- Line 68, `interpolate(method='linear')` on the temp column. -/
def linFill (l : List (Option ℚ)) : List (Option ℚ) :=
  (List.range l.length).map (fun i => interpCell l i)

/-- Cell `i` after `fillna(method='bfill')` (line 71). -/
def bfillCell (l : List (Option ℚ)) (i : ℕ) : Option ℚ :=
  match l.getD i none with
  | some v => some v
  | none => (nextKnown l i).map (·.2)

/-- Line 71, backward fill of the temp column. -/
def bfill (l : List (Option ℚ)) : List (Option ℚ) :=
  (List.range l.length).map (fun i => bfillCell l i)

/-- Cell `i` after `fillna(method='ffill')` (line 72). -/
def ffillCell (l : List (Option ℚ)) (i : ℕ) : Option ℚ :=
  match l.getD i none with
  | some v => some v
  | none => (prevKnown l i).map (·.2)

/-- Line 72, forward fill of the temp column. -/
def ffill (l : List (Option ℚ)) : List (Option ℚ) :=
  (List.range l.length).map (fun i => ffillCell l i)

/-- Lines 68-72 applied to one hour-of-day bucket: interpolate, then
bfill, then ffill the temperature column; timestamps are untouched. -/
def fillBucket (b : List GridRow) : List GridRow :=
  List.zipWith (fun r v => ⟨r.time, v⟩) b (ffill (bfill (linFill (b.map (·.temp)))))

/-- Row order used by `sort_values(by='datetime')` (line 78). -/
def rowLE (a b : GridRow) : Prop := a.time ≤ b.time

instance : DecidableRel rowLE := fun a b => inferInstanceAs (Decidable (a.time ≤ b.time))

instance : IsTotal GridRow rowLE := ⟨fun a b => Int.le_total a.time b.time⟩

instance : IsTrans GridRow rowLE := ⟨fun _ _ _ h1 h2 => le_trans h1 h2⟩

/-- Line 78, `sort_values(by='datetime')`: a comparison sort on the
timestamp column (all grid timestamps are distinct, so any comparison
sort yields the same list). -/
def sortRows (l : List GridRow) : List GridRow := l.insertionSort rowLE

/-- The 24 hour-of-day buckets of lines 63-65: for each `hour` in
`range(24)`, the rows whose timestamp has that hour of day, each passed
through the interpolate/bfill/ffill sequence. -/
def hourBuckets (l : List GridRow) : List (List GridRow) :=
  (List.range 24).map (fun hh => fillBucket (l.filter (fun r => hourOf r.time == hh)))

/-- Lines 61-78, the Interpolation Engine: segment the grid by hour of
day, fill each segment, concatenate the 24 segments (`pd.concat`), and
re-sort by timestamp. -/
def bucketPass (l : List GridRow) : List GridRow :=
  sortRows (hourBuckets l).flatten

/-- One row of the frame returned by `prepare_weather_data`: timestamp,
temperature, and the merged daily aggregate columns of lines 87-96.
The derived calendar columns `Year/Month/Day/Hour` (lines 81-84) are
functions of `time` (`dayOf`/`hourOf`) and are recomputed where used. -/
structure OutRow where
  time : Int
  temp : Option ℚ
  max_temp : Option ℚ
  min_temp : Option ℚ
  avg_temp : Option ℚ
  temp_diff : Option ℚ
deriving DecidableEq, Repr

/-- Known (non-NaN) temperatures of the rows falling on calendar day `d`
(the aggregation input of lines 87-91; pandas `max/min/mean` skip NaN). -/
def knownTemps (rows : List GridRow) (d : Int) : List ℚ :=
  (rows.filter (fun r => dayOf r.time == d)).filterMap (·.temp)

/-- Mean of a list of rationals, `NaN` (`none`) when the list is empty. -/
def meanQ (l : List ℚ) : Option ℚ :=
  if l.isEmpty then none else some (l.sum / (l.length : ℚ))

/-- Lines 81-96: the groupby on the calendar day with `max/min/mean`
aggregation, merged back onto every row of that day, plus the
`temp_diff = max_temp - min_temp` column.  The `pd.merge(..., on=[Year,
Month, Day])` inner join is modelled as a per-row map: the right frame
`daily_stats` is derived from the left frame itself, so every left key
matches exactly one stats row and the inner join keeps every left row in
left order. -/
def addDailyStats (rows : List GridRow) : List OutRow :=
  rows.map (fun r =>
    let ks := knownTemps rows (dayOf r.time)
    let mx := ks.max?
    let mn := ks.min?
    { time := r.time
      temp := r.temp
      max_temp := mx
      min_temp := mn
      avg_temp := meanQ ks
      temp_diff :=
        match mx, mn with
        | some a, some b => some (a - b)
        | _, _ => none })

/-- Lines 46-99 for a non-empty input: the full body of
`prepare_weather_data` after the DataFrame conversion.  The final filter
(line 97) keeps rows from midnight of the day after `start_date`'s day. -/
def prepRows (samples : List Sample) : List OutRow :=
  let shifted := shiftHours (resampleHourly samples)
  let start := minTime shifted
  let grid := joinGrid start shifted
  let interp := bucketPass grid
  let enriched := addDailyStats interp
  enriched.filter (fun r => 24 * (start / 24 + 1) ≤ r.time)

/-- Failure taxonomy. `keyError` is the pandas `KeyError` that line 44
raises when `weather_forecast_data` is empty (`pd.DataFrame([])` has no
'datetime' column).  `inputError` and `insufficientDataError` are the
error classes named by the specification (§7); the program never raises
either — they exist here so that statements about them can be expressed. -/
inductive PipelineError where
  | keyError
  | inputError
  | insufficientDataError
deriving DecidableEq, Repr

/-- Lines 30-99, `prepare_weather_data`: fails (pandas `KeyError`) on an
empty sample list, otherwise returns the prepared 7-day hourly frame. -/
def prepare_weather_data (samples : List Sample) : Except PipelineError (List OutRow) :=
  if samples.isEmpty then .error .keyError
  else .ok (prepRows samples)

/-- The feature vector handed to the LightGBM model on line 113:
`[Month, Hour, temp, max_temp, min_temp, avg_temp, temp_diff]`.
`Month` is a function of the calendar day, so the epoch day stands in
for it (composing the black-box model with the day→month map yields
another black box). -/
structure ModelFeatures where
  day : Int
  hour : ℕ
  temp : Option ℚ
  max_temp : Option ℚ
  min_temp : Option ℚ
  avg_temp : Option ℚ
  temp_diff : Option ℚ
deriving DecidableEq, Repr

/-- The feature extraction of line 113 for one row. -/
def featuresOf (r : OutRow) : ModelFeatures :=
  ⟨dayOf r.time, hourOf r.time, r.temp, r.max_temp, r.min_temp, r.avg_temp, r.temp_diff⟩

/-- A row after `predict_ghi` added the `ghi_forecasted` column. -/
structure GhiRow where
  time : Int
  temp : Option ℚ
  max_temp : Option ℚ
  min_temp : Option ℚ
  avg_temp : Option ℚ
  temp_diff : Option ℚ
  ghi_forecasted : ℚ
deriving DecidableEq, Repr

/-- Lines 101-117, `predict_ghi`: evaluate the pretrained model (a
parameter here, deterministic per the spec) on each row's feature vector
and store the result in the new `ghi_forecasted` column.  Nothing else
in the frame is touched. -/
def predict_ghi (model : ModelFeatures → ℚ) (rows : List OutRow) : List GhiRow :=
  rows.map (fun r =>
    ⟨r.time, r.temp, r.max_temp, r.min_temp, r.avg_temp, r.temp_diff, model (featuresOf r)⟩)

/-- A row after `calculate_power_generation` added the `power` column. -/
structure PowRow where
  time : Int
  temp : Option ℚ
  max_temp : Option ℚ
  min_temp : Option ℚ
  avg_temp : Option ℚ
  temp_diff : Option ℚ
  ghi_forecasted : ℚ
  power : ℚ
deriving DecidableEq, Repr

/-- Lines 144-162, `calculate_power_generation`: `ratio = capacity /
max_ghi` (the ceiling `max_ghi` comes from the external NREL lookup and
is a parameter here), then `power = ghi_forecasted * ratio` (line 161),
then the clamp `0 if x < 0 else x` (line 162).  The plotting block
(lines 164-174) reads the frame but never writes it. -/
def calculate_power_generation (rows : List GhiRow) (capacity maxGhi : ℚ) : List PowRow :=
  let ratio := capacity / maxGhi
  let withPower : List PowRow := rows.map (fun r =>
    ⟨r.time, r.temp, r.max_temp, r.min_temp, r.avg_temp, r.temp_diff, r.ghi_forecasted,
      r.ghi_forecasted * ratio⟩)
  withPower.map (fun r =>
    ⟨r.time, r.temp, r.max_temp, r.min_temp, r.avg_temp, r.temp_diff, r.ghi_forecasted,
      if r.power < 0 then 0 else r.power⟩)

/-- Lines 194-220, `calculate_optimal_tilt_angle`, as a function of the
latitude and of the day of the year of the first forecast row (the
`timetuple().tm_yday` of line 209, a number in 1..366). -/
def calculate_optimal_tilt_angle (lat : ℚ) (day_of_year : ℕ) : ℚ :=
  if 79 ≤ day_of_year ∧ day_of_year ≤ 263 then lat
  else if 356 ≤ day_of_year ∨ day_of_year ≤ 79 then lat + 15
  else max (lat - 15) 0

/-- Lines 222-253, `solar_power_forecast`, after the geocode gate (an
external collaborator): with an empty forecast payload the guard on line
245 prints a message and returns `None` without calling any pipeline
stage; otherwise the stages run in order.  The tilt angle (computed from
the first row's calendar day) is returned alongside; the `.error` branch
is unreachable because `prepare_weather_data` only fails on the empty
input already filtered out (an uncaught Python exception would
propagate; it is modelled as an absent result). -/
def solar_power_forecast (samples : List Sample) (capacity maxGhi : ℚ)
    (model : ModelFeatures → ℚ) : Option (List PowRow) :=
  if samples.isEmpty then none
  else
    match prepare_weather_data samples with
    | .ok rows => some (calculate_power_generation (predict_ghi model rows) capacity maxGhi)
    | .error _ => none

/-! General list plumbing lemmas used by the pipeline proofs. -/

/-- Filtering a mapped list is mapping the filtered list. -/
lemma map_filter_comm {α β : Type} (g : α → β) (p : β → Bool) (l : List α) :
    (l.map g).filter p = (l.filter (fun a => p (g a))).map g := by
  induction l with
  | nil => rfl
  | cons a t ih =>
    simp only [List.map_cons, List.filter_cons]
    by_cases h : p (g a) = true
    · simp [h, ih]
    · simp [h, ih]

/-- Keeping the values below `m` out of `range n` leaves `range (min m n)`. -/
lemma range_filter_decide_lt (n m : ℕ) :
    (List.range n).filter (fun k => decide (k < m)) = List.range (min m n) := by
  induction n with
  | zero => simp
  | succ n ih =>
    rw [List.range_succ, List.filter_append, ih]
    by_cases h : n < m
    · have h1 : min m n = n := by omega
      have h2 : min m (n + 1) = n + 1 := by omega
      simp [h, h1, h2, List.range_succ]
    · have h1 : min m n = m := by omega
      have h2 : min m (n + 1) = m := by omega
      simp [h, h1, h2]

/-- Keeping the values at or above `m` out of `range n` leaves the shifted
range `m, m+1, ..., n-1`. -/
lemma range_filter_decide_le (n m : ℕ) :
    (List.range n).filter (fun k => decide (m ≤ k)) =
      (List.range (n - m)).map (fun j => m + j) := by
  induction n with
  | zero => simp
  | succ n ih =>
    rw [List.range_succ, List.filter_append, ih]
    by_cases h : m ≤ n
    · have h2 : n + 1 - m = (n - m) + 1 := by omega
      have h3 : m + (n - m) = n := by omega
      rw [h2, List.range_succ, List.map_append]
      simp [h, h3]
    · have h2 : n + 1 - m = 0 := by omega
      have h3 : n - m = 0 := by omega
      simp [h, h2, h3]

/-- Reading every position of a list back off with `getD` reproduces it. -/
lemma range_map_getD {α : Type} (l : List α) (d : α) :
    (List.range l.length).map (fun i => l.getD i d) = l := by
  induction l with
  | nil => rfl
  | cons a t ih =>
    rw [List.length_cons, List.range_succ_eq_map, List.map_cons, List.map_map]
    simp only [List.getD_cons_zero, Function.comp_def, List.getD_cons_succ]
    rw [ih]

/-- `getD` through a map over `range`. -/
lemma getD_range_map {α : Type} (f : ℕ → α) (n i : ℕ) (d : α) (h : i < n) :
    ((List.range n).map f).getD i d = f i := by
  have h1 : i < ((List.range n).map f).length := by simpa using h
  rw [List.getD_eq_getElem _ _ h1]
  rw [List.getElem_map, List.getElem_range]

/-- The timestamps of a bucket survive reattaching a filled temp column. -/
lemma zipWith_time_map (b : List GridRow) (v : List (Option ℚ)) (h : b.length = v.length) :
    (List.zipWith (fun r x => (⟨r.time, x⟩ : GridRow)) b v).map (·.time) = b.map (·.time) := by
  induction b generalizing v with
  | nil => simp
  | cons r t ih =>
    cases v with
    | nil => simp at h
    | cons x w =>
      simp only [List.zipWith_cons_cons, List.map_cons]
      rw [ih w (by simpa using h)]

/-- Reattaching a bucket's own temp column reproduces the bucket. -/
lemma zipWith_eta (b : List GridRow) :
    List.zipWith (fun r x => (⟨r.time, x⟩ : GridRow)) b (b.map (·.temp)) = b := by
  induction b with
  | nil => rfl
  | cons r t ih => simp [ih]

/-- A member of a `zipWith` is the image of one index of both lists. -/
lemma mem_zipWith {α β γ : Type} {f : α → β → γ} {x : γ} :
    ∀ {as : List α} {bs : List β}, x ∈ List.zipWith f as bs →
      ∃ i, ∃ h1 : i < as.length, ∃ h2 : i < bs.length, x = f as[i] bs[i] := by
  intro as
  induction as with
  | nil => intro bs hx; simp at hx
  | cons a t ih =>
    intro bs hx
    cases bs with
    | nil => simp at hx
    | cons b w =>
      rw [List.zipWith_cons_cons] at hx
      rcases List.mem_cons.mp hx with h | h
      · exact ⟨0, by simp, by simp, by simpa using h⟩
      · rcases ih h with ⟨i, h1, h2, hx'⟩
        exact ⟨i + 1, by simpa using h1, by simpa using h2, by simpa using hx'⟩

/-- Occurrence count distributes over a concatenation of lists. -/
lemma count_flatten {α : Type} [DecidableEq α] (a : α) :
    ∀ L : List (List α), L.flatten.count a = (L.map (fun l => l.count a)).sum
  | [] => rfl
  | l :: L => by
    rw [List.flatten_cons, List.count_append, List.map_cons, List.sum_cons, count_flatten a L]

/-- Occurrence count in a filtered list. -/
lemma count_filter_eq {α : Type} [DecidableEq α] (a : α) (p : α → Bool) (l : List α) :
    (l.filter p).count a = if p a then l.count a else 0 := by
  induction l with
  | nil => simp
  | cons b t ih =>
    rw [List.filter_cons]
    by_cases hpb : p b = true
    · rw [if_pos hpb, List.count_cons, ih]
      by_cases hab : b = a
      · subst hab; simp [hpb]
      · simp [hab, List.count_cons]
    · rw [if_neg hpb, ih]
      by_cases hpa : p a = true
      · rw [if_pos hpa, if_pos hpa, List.count_cons]
        have : b ≠ a := by rintro rfl; exact hpb hpa
        simp [this]
      · simp [hpa]

/-- Summing an indicator family over `range n` picks out the one hit. -/
lemma onehot_sum (x n c : ℕ) (hx : x < n) :
    ((List.range n).map (fun hh => if x == hh then c else 0)).sum = c := by
  induction n with
  | zero => omega
  | succ n ih =>
    rw [List.range_succ, List.map_append, List.sum_append]
    by_cases h : x = n
    · subst h
      have hz : ((List.range x).map (fun hh => if x == hh then c else 0)).sum = 0 := by
        apply List.sum_eq_zero
        intro y hy
        rcases List.mem_map.mp hy with ⟨hh, hhr, rfl⟩
        have hlt : hh < x := List.mem_range.mp hhr
        have hne : (x == hh) = false := by
          simp only [beq_eq_false_iff_ne, ne_eq]
          omega
        rw [hne]
        simp
      rw [hz]
      simp
    · have hx' : x < n := by omega
      rw [ih hx']
      simp [h]

/-- Splitting a list into its fibers over a bounded key and concatenating
the fibers permutes the list (lines 63-75: the 24 hour-of-day segments
recombined by `pd.concat`). -/
lemma flatten_filter_key_perm {α : Type} [DecidableEq α] (key : α → ℕ) (n : ℕ) (l : List α)
    (hk : ∀ a ∈ l, key a < n) :
    (((List.range n).map (fun hh => l.filter (fun a => key a == hh))).flatten).Perm l := by
  rw [List.perm_iff_count]
  intro a
  rw [count_flatten, List.map_map]
  by_cases ha : a ∈ l
  · have hmaps : ((List.range n).map ((fun lsub : List α => lsub.count a) ∘
        (fun hh => l.filter (fun b => key b == hh)))) =
        (List.range n).map (fun hh => if key a == hh then l.count a else 0) := by
      apply List.map_congr_left
      intro hh _
      exact count_filter_eq a (fun b => key b == hh) l
    rw [hmaps, onehot_sum (key a) n (l.count a) (hk a ha)]
  · rw [List.count_eq_zero_of_not_mem ha]
    apply List.sum_eq_zero
    intro y hy
    rcases List.mem_map.mp hy with ⟨hh, _, rfl⟩
    exact List.count_eq_zero_of_not_mem (fun hmem => ha (List.mem_of_mem_filter hmem))

/-- A permutation between a strictly ordered list and a weakly ordered
list (orders linked by an asymmetry condition) is an equality. -/
lemma perm_pairwise_eq {α : Type} {lt le : α → α → Prop}
    (compat : ∀ a b, lt a b → le b a → False) :
    ∀ l1 l2 : List α, l1.Perm l2 → l1.Pairwise lt → l2.Pairwise le → l1 = l2 := by
  intro l1
  induction l1 with
  | nil =>
    intro l2 hp _ _
    exact (List.Perm.eq_nil hp.symm).symm
  | cons a t ih =>
    intro l2 hp h1 h2
    cases l2 with
    | nil => exact absurd (List.Perm.eq_nil hp) (by simp)
    | cons b u =>
      have hab : a = b := by
        by_contra hne
        have ha2 : a ∈ b :: u := hp.mem_iff.mp (List.mem_cons_self a t)
        have hb1 : b ∈ a :: t := hp.symm.mem_iff.mp (List.mem_cons_self b u)
        have ha' : a ∈ u := by
          rcases List.mem_cons.mp ha2 with h | h
          · exact absurd h hne
          · exact h
        have hb' : b ∈ t := by
          rcases List.mem_cons.mp hb1 with h | h
          · exact absurd h.symm hne
          · exact h
        exact compat a b ((List.pairwise_cons.mp h1).1 b hb') ((List.pairwise_cons.mp h2).1 a ha')
      subst hab
      rw [ih u hp.cons_inv (List.pairwise_cons.mp h1).2 (List.pairwise_cons.mp h2).2]

/-! Grid Builder and Interpolation Engine structure lemmas. -/

/-- The grid of lines 56-58 in closed form: the hours `start + k` for
`k < 192 - (start mod 24)`. -/
lemma gridTimes_eq (start : Int) :
    gridTimes start =
      (List.range (192 - (start % 24).toNat)).map (fun k : ℕ => start + (k : Int)) := by
  have h1 : gridTimes start =
      ((List.range 193).filter (fun k : ℕ => decide (start + (k : Int) < gridCut start))).map
        (fun k : ℕ => start + (k : Int)) := by
    unfold gridTimes fullRange
    exact map_filter_comm _ _ _
  have hcongr : ((List.range 193).filter
      (fun k : ℕ => decide (start + (k : Int) < gridCut start))) =
      (List.range 193).filter (fun k : ℕ => decide (k < 192 - (start % 24).toNat)) := by
    apply List.filter_congr
    intro k hk
    apply decide_eq_decide.mpr
    unfold gridCut
    omega
  rw [h1, hcongr, range_filter_decide_lt]
  have hmin : min (192 - (start % 24).toNat) 193 = 192 - (start % 24).toNat := by omega
  rw [hmin]

/-- The timestamps of the joined grid are the grid timestamps. -/
lemma joinGrid_times (start : Int) (known : List Sample) :
    (joinGrid start known).map (·.time) = gridTimes start := by
  unfold joinGrid
  rw [List.map_map]
  exact List.map_id' (gridTimes start)

/-- Length preservation of the three fill passes. -/
lemma linFill_length (l : List (Option ℚ)) : (linFill l).length = l.length := by
  simp [linFill]

/-- Length preservation of the backward fill. -/
lemma bfill_length (l : List (Option ℚ)) : (bfill l).length = l.length := by
  simp [bfill]

/-- Length preservation of the forward fill. -/
lemma ffill_length (l : List (Option ℚ)) : (ffill l).length = l.length := by
  simp [ffill]

/-- Filling a bucket rewrites temperatures but never timestamps. -/
lemma fillBucket_times (b : List GridRow) :
    (fillBucket b).map (·.time) = b.map (·.time) := by
  unfold fillBucket
  apply zipWith_time_map
  rw [ffill_length, bfill_length, linFill_length, List.length_map]

/-- An hour of day is one of 0..23. -/
lemma hourOf_lt (t : Int) : hourOf t < 24 := by
  unfold hourOf
  omega

/-- The concatenation of the 24 filled buckets carries the same multiset
of timestamps as the grid it was cut from. -/
lemma hourBuckets_flatten_times_perm (l : List GridRow) :
    ((hourBuckets l).flatten.map (·.time)).Perm (l.map (·.time)) := by
  rw [List.map_flatten]
  have h1 : (hourBuckets l).map (List.map (·.time)) =
      (List.range 24).map (fun hh => (l.map (·.time)).filter (fun t => hourOf t == hh)) := by
    unfold hourBuckets
    rw [List.map_map]
    apply List.map_congr_left
    intro hh _
    show (fillBucket (l.filter (fun r => hourOf r.time == hh))).map (·.time) = _
    rw [fillBucket_times]
    exact (map_filter_comm (·.time) (fun t => hourOf t == hh) l).symm
  rw [h1]
  exact flatten_filter_key_perm (fun t => hourOf t) 24 (l.map (·.time)) (fun t _ => hourOf_lt t)

/-- The Interpolation Engine permutes the grid rows (concat of the 24
buckets, then a sort). -/
lemma bucketPass_perm (l : List GridRow) : (bucketPass l).Perm (hourBuckets l).flatten :=
  List.perm_insertionSort rowLE (hourBuckets l).flatten

/-- The Interpolation Engine output is sorted by timestamp (line 78). -/
lemma bucketPass_sorted (l : List GridRow) : (bucketPass l).Pairwise rowLE :=
  List.sorted_insertionSort rowLE (hourBuckets l).flatten

/-- On a grid with strictly increasing timestamps, the Interpolation
Engine returns rows carrying exactly the original timestamp column. -/
lemma bucketPass_times_eq (l : List GridRow) (h : (l.map (·.time)).Pairwise (· < ·)) :
    (bucketPass l).map (·.time) = l.map (·.time) := by
  have hperm : ((bucketPass l).map (·.time)).Perm (l.map (·.time)) :=
    ((bucketPass_perm l).map (·.time)).trans (hourBuckets_flatten_times_perm l)
  have hsorted : ((bucketPass l).map (·.time)).Pairwise (· ≤ ·) := by
    rw [List.pairwise_map]
    exact bucketPass_sorted l
  exact (perm_pairwise_eq (fun (a b : Int) ha hb => absurd ha (not_lt.mpr hb))
    (l.map (·.time)) ((bucketPass l).map (·.time)) hperm.symm h hsorted).symm

/-- The daily-stats merge keeps the timestamp column unchanged. -/
lemma addDailyStats_times (rows : List GridRow) :
    (addDailyStats rows).map (·.time) = rows.map (·.time) := by
  unfold addDailyStats
  rw [List.map_map]
  rfl

/-- The post-grid pipeline (join, bucketed fill, stats merge, final
day-1 filter) emits exactly the 168 hours of the 7 days following the
start day, in order, whatever the start and the known samples are. -/
lemma pipeline_times (start : Int) (known : List Sample) :
    ((addDailyStats (bucketPass (joinGrid start known))).filter
        (fun r => 24 * (start / 24 + 1) ≤ r.time)).map (·.time) =
      (List.range 168).map (fun j : ℕ => 24 * (start / 24 + 1) + (j : Int)) := by
  have hgridtimes : (joinGrid start known).map (·.time) =
      (List.range (192 - (start % 24).toNat)).map (fun k : ℕ => start + (k : Int)) := by
    rw [joinGrid_times, gridTimes_eq]
  have hpair : ((joinGrid start known).map (·.time)).Pairwise (· < ·) := by
    rw [hgridtimes, List.pairwise_map]
    exact (List.pairwise_lt_range _).imp (fun hab => by omega)
  have htimes : (addDailyStats (bucketPass (joinGrid start known))).map (·.time) =
      (List.range (192 - (start % 24).toNat)).map (fun k : ℕ => start + (k : Int)) := by
    rw [addDailyStats_times, bucketPass_times_eq _ hpair, hgridtimes]
  have hsplit : ((addDailyStats (bucketPass (joinGrid start known))).filter
      (fun r => 24 * (start / 24 + 1) ≤ r.time)).map (·.time) =
      ((addDailyStats (bucketPass (joinGrid start known))).map (·.time)).filter
        (fun t : Int => decide (24 * (start / 24 + 1) ≤ t)) :=
    (map_filter_comm (fun r : OutRow => r.time)
      (fun t : Int => decide (24 * (start / 24 + 1) ≤ t)) _).symm
  rw [hsplit, htimes]
  have hsplit2 : ((List.range (192 - (start % 24).toNat)).map
      (fun k : ℕ => start + (k : Int))).filter (fun t : Int => decide (24 * (start / 24 + 1) ≤ t)) =
      ((List.range (192 - (start % 24).toNat)).filter
        (fun k : ℕ => decide (24 * (start / 24 + 1) ≤ start + (k : Int)))).map
          (fun k : ℕ => start + (k : Int)) :=
    map_filter_comm _ _ _
  rw [hsplit2]
  have hcongr : ((List.range (192 - (start % 24).toNat)).filter
      (fun k : ℕ => decide (24 * (start / 24 + 1) ≤ start + (k : Int)))) =
      (List.range (192 - (start % 24).toNat)).filter
        (fun k : ℕ => decide (24 - (start % 24).toNat ≤ k)) := by
    apply List.filter_congr
    intro k _
    apply decide_eq_decide.mpr
    omega
  rw [hcongr, range_filter_decide_le, List.map_map]
  have hlen : (192 - (start % 24).toNat) - (24 - (start % 24).toNat) = 168 := by omega
  rw [hlen]
  apply List.map_congr_left
  intro j _
  show start + ((24 - (start % 24).toNat + j : ℕ) : Int) = 24 * (start / 24 + 1) + (j : Int)
  omega

/-- The timestamp column of `prepare_weather_data`'s result in closed
form: the 168 consecutive hours starting at midnight of the day after
the start day. -/
lemma prepRows_times (samples : List Sample) :
    (prepRows samples).map (·.time) =
      (List.range 168).map (fun j : ℕ => 24 * (prepStart samples / 24 + 1) + (j : Int)) := by
  unfold prepRows
  exact pipeline_times (prepStart samples) (shiftHours (resampleHourly samples))

/-! Behaviour of the interpolate/bfill/ffill column passes. -/

/-- `interpolate` leaves a fully known column unchanged. -/
lemma linFill_of_all_some (l : List (Option ℚ)) (h : ∀ o ∈ l, o.isSome) :
    linFill l = l := by
  unfold linFill
  have hcong : ∀ i ∈ List.range l.length, interpCell l i = l.getD i none := by
    intro i hi
    have hi' : i < l.length := List.mem_range.mp hi
    unfold interpCell
    have hsome : (l.getD i none).isSome := by
      rw [List.getD_eq_getElem _ _ hi']
      exact h _ (List.getElem_mem hi')
    rcases Option.isSome_iff_exists.mp hsome with ⟨v, hv⟩
    rw [hv]
  rw [List.map_congr_left hcong, range_map_getD]

/-- `bfill` leaves a fully known column unchanged. -/
lemma bfill_of_all_some (l : List (Option ℚ)) (h : ∀ o ∈ l, o.isSome) :
    bfill l = l := by
  unfold bfill
  have hcong : ∀ i ∈ List.range l.length, bfillCell l i = l.getD i none := by
    intro i hi
    have hi' : i < l.length := List.mem_range.mp hi
    unfold bfillCell
    have hsome : (l.getD i none).isSome := by
      rw [List.getD_eq_getElem _ _ hi']
      exact h _ (List.getElem_mem hi')
    rcases Option.isSome_iff_exists.mp hsome with ⟨v, hv⟩
    rw [hv]
  rw [List.map_congr_left hcong, range_map_getD]

/-- `ffill` leaves a fully known column unchanged. -/
lemma ffill_of_all_some (l : List (Option ℚ)) (h : ∀ o ∈ l, o.isSome) :
    ffill l = l := by
  unfold ffill
  have hcong : ∀ i ∈ List.range l.length, ffillCell l i = l.getD i none := by
    intro i hi
    have hi' : i < l.length := List.mem_range.mp hi
    unfold ffillCell
    have hsome : (l.getD i none).isSome := by
      rw [List.getD_eq_getElem _ _ hi']
      exact h _ (List.getElem_mem hi')
    rcases Option.isSome_iff_exists.mp hsome with ⟨v, hv⟩
    rw [hv]
  rw [List.map_congr_left hcong, range_map_getD]

/-- A bucket with no gaps passes through lines 68-72 unchanged. -/
lemma fillBucket_of_all_some (b : List GridRow) (h : ∀ r ∈ b, r.temp.isSome) :
    fillBucket b = b := by
  unfold fillBucket
  have hv : ∀ o ∈ b.map (·.temp), o.isSome := by
    intro o ho
    rcases List.mem_map.mp ho with ⟨r, hr, rfl⟩
    exact h r hr
  rw [linFill_of_all_some _ hv, bfill_of_all_some _ hv, ffill_of_all_some _ hv]
  exact zipWith_eta b

/-- An entirely unknown column has no first known cell. -/
lemma firstKnown_eq_none (l : List (Option ℚ)) (h : ∀ o ∈ l, o = none) :
    firstKnown l = none := by
  induction l with
  | nil => rfl
  | cons o rest ih =>
    have ho : o = none := h o (List.mem_cons_self o rest)
    subst ho
    unfold firstKnown
    rw [ih (fun o ho => h o (List.mem_cons_of_mem _ ho))]
    rfl

/-- An entirely unknown column has no last known cell. -/
lemma lastKnown_eq_none (l : List (Option ℚ)) (h : ∀ o ∈ l, o = none) :
    lastKnown l = none := by
  induction l with
  | nil => rfl
  | cons o rest ih =>
    have ho : o = none := h o (List.mem_cons_self o rest)
    subst ho
    unfold lastKnown
    rw [ih (fun o ho => h o (List.mem_cons_of_mem _ ho))]
    rfl

/-- The three fill passes cannot invent values: a column with no known
cell at all comes out unchanged (still entirely unknown). -/
lemma linFill_of_all_none (l : List (Option ℚ)) (h : ∀ o ∈ l, o = none) :
    linFill l = l := by
  unfold linFill
  have hcong : ∀ i ∈ List.range l.length, interpCell l i = l.getD i none := by
    intro i hi
    have hi' : i < l.length := List.mem_range.mp hi
    have hnone : l.getD i none = none := by
      rw [List.getD_eq_getElem _ _ hi']
      exact h _ (List.getElem_mem hi')
    unfold interpCell prevKnown
    rw [hnone, lastKnown_eq_none _ (fun o ho => h o (List.mem_of_mem_take ho))]
  rw [List.map_congr_left hcong, range_map_getD]

/-- `bfill` on an entirely unknown column is the identity. -/
lemma bfill_of_all_none (l : List (Option ℚ)) (h : ∀ o ∈ l, o = none) :
    bfill l = l := by
  unfold bfill
  have hcong : ∀ i ∈ List.range l.length, bfillCell l i = l.getD i none := by
    intro i hi
    have hi' : i < l.length := List.mem_range.mp hi
    have hnone : l.getD i none = none := by
      rw [List.getD_eq_getElem _ _ hi']
      exact h _ (List.getElem_mem hi')
    unfold bfillCell nextKnown
    rw [hnone, firstKnown_eq_none _ (fun o ho => h o (List.mem_of_mem_drop ho))]
    rfl
  rw [List.map_congr_left hcong, range_map_getD]

/-- `ffill` on an entirely unknown column is the identity. -/
lemma ffill_of_all_none (l : List (Option ℚ)) (h : ∀ o ∈ l, o = none) :
    ffill l = l := by
  unfold ffill
  have hcong : ∀ i ∈ List.range l.length, ffillCell l i = l.getD i none := by
    intro i hi
    have hi' : i < l.length := List.mem_range.mp hi
    have hnone : l.getD i none = none := by
      rw [List.getD_eq_getElem _ _ hi']
      exact h _ (List.getElem_mem hi')
    unfold ffillCell prevKnown
    rw [hnone, lastKnown_eq_none _ (fun o ho => h o (List.mem_of_mem_take ho))]
    rfl
  rw [List.map_congr_left hcong, range_map_getD]

/-- A bucket with no known value at all passes through lines 68-72
unchanged: the engine never fills across buckets. -/
lemma fillBucket_of_all_none (b : List GridRow) (h : ∀ r ∈ b, r.temp = none) :
    fillBucket b = b := by
  unfold fillBucket
  have hv : ∀ o ∈ b.map (·.temp), o = none := by
    intro o ho
    rcases List.mem_map.mp ho with ⟨r, hr, rfl⟩
    exact h r hr
  rw [linFill_of_all_none _ hv, bfill_of_all_none _ hv, ffill_of_all_none _ hv]
  exact zipWith_eta b

/-- A column with a known cell has a first known cell. -/
lemma firstKnown_isSome (l : List (Option ℚ)) (h : ∃ o ∈ l, o.isSome) :
    (firstKnown l).isSome := by
  induction l with
  | nil => rcases h with ⟨o, ho, _⟩; simp at ho
  | cons o rest ih =>
    cases o with
    | some v => rfl
    | none =>
      rcases h with ⟨o', ho', hs'⟩
      rcases List.mem_cons.mp ho' with h1 | h1
      · subst h1; simp at hs'
      · unfold firstKnown
        rcases Option.isSome_iff_exists.mp (ih ⟨o', h1, hs'⟩) with ⟨p, hp⟩
        rw [hp]
        rfl

/-- A column with a known cell has a last known cell. -/
lemma lastKnown_isSome (l : List (Option ℚ)) (h : ∃ o ∈ l, o.isSome) :
    (lastKnown l).isSome := by
  induction l with
  | nil => rcases h with ⟨o, ho, _⟩; simp at ho
  | cons o rest ih =>
    unfold lastKnown
    by_cases hrest : ∃ o' ∈ rest, o'.isSome
    · rcases Option.isSome_iff_exists.mp (ih hrest) with ⟨p, hp⟩
      rw [hp]
      rfl
    · rcases h with ⟨o', ho', hs'⟩
      rcases List.mem_cons.mp ho' with h1 | h1
      · subst h1
        rcases Option.isSome_iff_exists.mp hs' with ⟨v, hv⟩
        subst hv
        cases hlk : lastKnown rest with
        | some p => rfl
        | none => rfl
      · exact absurd ⟨o', h1, hs'⟩ hrest

/-- A known cell at or before `i` gives `prevKnown` a hit. -/
lemma prevKnown_isSome (l : List (Option ℚ)) (i j : ℕ) (hj : j ≤ i) (hjl : j < l.length)
    (hs : (l.getD j none).isSome) : (prevKnown l i).isSome := by
  unfold prevKnown
  apply lastKnown_isSome
  refine ⟨l.getD j none, ?_, hs⟩
  rw [List.getD_eq_getElem _ _ hjl]
  have hjt : j < (l.take (i + 1)).length := by
    rw [List.length_take]
    omega
  have heq : (l.take (i + 1))[j] = l[j] := List.getElem_take l
  rw [← heq]
  exact List.getElem_mem hjt

/-- A known cell at or after `i` gives `nextKnown` a hit. -/
lemma nextKnown_isSome (l : List (Option ℚ)) (i j : ℕ) (hj : i ≤ j) (hjl : j < l.length)
    (hs : (l.getD j none).isSome) : (nextKnown l i).isSome := by
  unfold nextKnown
  have hfk : (firstKnown (l.drop i)).isSome := by
    apply firstKnown_isSome
    have hlen : j - i < (l.drop i).length := by
      rw [List.length_drop]
      omega
    refine ⟨(l.drop i).get ⟨j - i, hlen⟩, List.get_mem _ _ _, ?_⟩
    have heq2 : (l.drop i).get ⟨j - i, hlen⟩ = l.get ⟨j, hjl⟩ := by
      show (l.drop i)[j - i] = l[j]
      rw [List.getElem_drop l]
      congr 1
      omega
    rw [heq2]
    rw [List.getD_eq_getElem _ _ hjl] at hs
    exact hs
  rcases Option.isSome_iff_exists.mp hfk with ⟨p, hp⟩
  rw [hp]
  rfl

/-- `interpolate` fills position `i` whenever a known cell exists at or
before it. -/
lemma interpCell_isSome (l : List (Option ℚ)) (i : ℕ)
    (h : ∃ j, j ≤ i ∧ j < l.length ∧ (l.getD j none).isSome) :
    (interpCell l i).isSome := by
  unfold interpCell
  cases hgi : l.getD i none with
  | some v => rfl
  | none =>
    rcases h with ⟨j, hj1, hj2, hj3⟩
    rcases Option.isSome_iff_exists.mp (prevKnown_isSome l i j hj1 hj2 hj3) with ⟨⟨jj, a⟩, hpv⟩
    rw [hpv]
    cases hnk : nextKnown l i with
    | some p => cases p with | mk k b => rfl
    | none => rfl

/-- `bfill` fills position `i` whenever a known cell exists at or after it. -/
lemma bfillCell_isSome (l : List (Option ℚ)) (i : ℕ)
    (h : ∃ j, i ≤ j ∧ j < l.length ∧ (l.getD j none).isSome) :
    (bfillCell l i).isSome := by
  unfold bfillCell
  cases hgi : l.getD i none with
  | some v => rfl
  | none =>
    rcases h with ⟨j, hj1, hj2, hj3⟩
    rcases Option.isSome_iff_exists.mp (nextKnown_isSome l i j hj1 hj2 hj3) with ⟨⟨k, b⟩, hnv⟩
    rw [hnv]
    rfl

/-- Reading one cell of a fill pass output. -/
lemma linFill_getD (l : List (Option ℚ)) (i : ℕ) (hi : i < l.length) :
    (linFill l).getD i none = interpCell l i := by
  unfold linFill
  exact getD_range_map _ _ _ _ hi

/-- Reading one cell of the backward fill output. -/
lemma bfill_getD (l : List (Option ℚ)) (i : ℕ) (hi : i < l.length) :
    (bfill l).getD i none = bfillCell l i := by
  unfold bfill
  exact getD_range_map _ _ _ _ hi

/-- The interpolate + bfill + ffill cascade of lines 68-72 leaves no gap
in a column holding at least one known value. -/
lemma fills_all_some (v : List (Option ℚ)) (h : ∃ o ∈ v, o.isSome) :
    ∀ x ∈ ffill (bfill (linFill v)), x.isSome := by
  rcases h with ⟨o0, ho0, hs0⟩
  rcases List.mem_iff_getElem.mp ho0 with ⟨j0, hj0, hget0⟩
  have hknown0 : (v.getD j0 none).isSome := by
    rw [List.getD_eq_getElem _ _ hj0, hget0]
    exact hs0
  intro x hx
  set u := linFill v with hu
  set w := bfill u with hw
  have hulen : u.length = v.length := linFill_length v
  have hwlen : w.length = u.length := bfill_length u
  rcases List.mem_iff_getElem.mp hx with ⟨i, hi, hx'⟩
  have hiw : i < w.length := by
    have := ffill_length w
    omega
  have hxcell : x = ffillCell w i := by
    rw [← hx']
    have : (ffill w)[i] = (ffill w).getD i none := by
      rw [List.getD_eq_getElem]
    rw [this]
    unfold ffill
    exact getD_range_map _ _ _ _ hiw
  -- position i of the bfill output is known:
  have hwi : (w.getD i none).isSome := by
    have hiu : i < u.length := by omega
    rw [hw, bfill_getD u i hiu]
    apply bfillCell_isSome
    by_cases hcmp : j0 ≤ i
    · -- a known cell lies at or before i, so interpolate filled i itself
      refine ⟨i, le_refl i, hiu, ?_⟩
      rw [hu, linFill_getD v i (by omega)]
      exact interpCell_isSome v i ⟨j0, hcmp, hj0, hknown0⟩
    · -- the known cell lies strictly after i
      refine ⟨j0, by omega, by omega, ?_⟩
      rw [hu, linFill_getD v j0 hj0]
      unfold interpCell
      rcases Option.isSome_iff_exists.mp hknown0 with ⟨val, hval⟩
      rw [hval]
      rfl
  rw [hxcell]
  unfold ffillCell
  rcases Option.isSome_iff_exists.mp hwi with ⟨val, hval⟩
  rw [hval]
  rfl

/-- A bucket holding at least one known temperature comes out of
lines 68-72 with every temperature known. -/
lemma fillBucket_all_some (b : List GridRow) (h : ∃ r ∈ b, r.temp.isSome) :
    ∀ r ∈ fillBucket b, r.temp.isSome := by
  intro r hr
  rcases h with ⟨r0, hr0, hs0⟩
  have hv : ∃ o ∈ b.map (·.temp), o.isSome :=
    ⟨r0.temp, List.mem_map.mpr ⟨r0, hr0, rfl⟩, hs0⟩
  unfold fillBucket at hr
  rcases mem_zipWith hr with ⟨i, h1, h2, hx⟩
  have : r.temp = (ffill (bfill (linFill (b.map (·.temp)))))[i] := by
    rw [hx]
  rw [this]
  exact fills_all_some _ hv _ (List.getElem_mem h2)

/-- On a gap-free grid every bucket is gap-free, so lines 63-75 reduce to
partitioning and re-concatenating. -/
lemma hourBuckets_eq_filters_of_all_some (l : List GridRow) (h : ∀ r ∈ l, r.temp.isSome) :
    hourBuckets l = (List.range 24).map (fun hh => l.filter (fun r => hourOf r.time == hh)) := by
  unfold hourBuckets
  apply List.map_congr_left
  intro hh _
  apply fillBucket_of_all_some
  intro r hr
  exact h r (List.mem_of_mem_filter hr)

/-- The Interpolation Engine is the identity on a gap-free strictly
ascending grid. -/
lemma bucketPass_id (l : List GridRow) (hpair : l.Pairwise (fun a b => a.time < b.time))
    (h : ∀ r ∈ l, r.temp.isSome) : bucketPass l = l := by
  have hperm : (bucketPass l).Perm l := by
    refine (bucketPass_perm l).trans ?_
    rw [hourBuckets_eq_filters_of_all_some l h]
    exact flatten_filter_key_perm (fun r : GridRow => hourOf r.time) 24 l
      (fun r _ => hourOf_lt r.time)
  have hsorted := bucketPass_sorted l
  exact (@perm_pairwise_eq GridRow (fun a b => a.time < b.time) rowLE
    (fun a b hab hba => absurd hab (not_lt.mpr hba)) l (bucketPass l)
    hperm.symm hpair hsorted).symm

/-- The engine never fills across buckets: a bucket that is entirely
missing is still entirely missing after the pass. -/
lemma bucketPass_keeps_empty_bucket (l : List GridRow) (hh : ℕ)
    (hempty : ∀ r ∈ l, hourOf r.time = hh → r.temp = none) :
    ∀ r ∈ bucketPass l, hourOf r.time = hh → r.temp = none := by
  intro r hr hhr
  have hr2 : r ∈ (hourBuckets l).flatten := (bucketPass_perm l).mem_iff.mp hr
  rcases List.mem_flatten.mp hr2 with ⟨bucket, hbmem, hrb⟩
  unfold hourBuckets at hbmem
  rcases List.mem_map.mp hbmem with ⟨h2, _, rfl⟩
  by_cases hcase : h2 = hh
  · subst hcase
    have hbn : ∀ rb ∈ l.filter (fun rr => hourOf rr.time == h2), rb.temp = none := by
      intro rb hrbmem
      have hsplit := List.mem_filter.mp hrbmem
      exact hempty rb hsplit.1 (by simpa using hsplit.2)
    rw [fillBucket_of_all_none _ hbn] at hrb
    exact hbn r hrb
  · exfalso
    have htm : r.time ∈ (fillBucket (l.filter (fun rr => hourOf rr.time == h2))).map (·.time) :=
      List.mem_map.mpr ⟨r, hrb, rfl⟩
    rw [fillBucket_times] at htm
    rcases List.mem_map.mp htm with ⟨rb, hrbmem, htime⟩
    have h2eq : hourOf rb.time = h2 := by simpa using (List.mem_filter.mp hrbmem).2
    rw [htime] at h2eq
    exact hcase (h2eq.symm.trans hhr)

/-- Every row of the engine output is known as soon as each of the 24
buckets holds at least one known value. -/
lemma bucketPass_all_some (l : List GridRow)
    (h : ∀ hh, hh < 24 → ∃ r ∈ l, hourOf r.time = hh ∧ r.temp.isSome) :
    ∀ r ∈ bucketPass l, r.temp.isSome := by
  intro r hr
  have hr2 : r ∈ (hourBuckets l).flatten := (bucketPass_perm l).mem_iff.mp hr
  rcases List.mem_flatten.mp hr2 with ⟨bucket, hbmem, hrb⟩
  unfold hourBuckets at hbmem
  rcases List.mem_map.mp hbmem with ⟨hh, hhmem, rfl⟩
  have hh24 : hh < 24 := List.mem_range.mp hhmem
  rcases h hh hh24 with ⟨r0, hr0, hhr0, hs0⟩
  exact fillBucket_all_some _
    ⟨r0, List.mem_filter.mpr ⟨hr0, by simpa using hhr0⟩, hs0⟩ r hrb

/-! The ten claims. -/

set_option maxRecDepth 100000 in
/-- C1 counterexample: the ascending two-sample input at hours 6 and 54
spans 48 hours (at least one day), its shifted grid start is hour 1, and
the Grid Builder then emits 191 hourly timestamps — not the claimed
8*24 = 192. -/
theorem C1_grid_not_192_cex :
    ([⟨6, 10⟩, ⟨54, 12⟩] : List Sample).Pairwise (fun a b => a.time < b.time)
    ∧ ((54 : Int) - 6 ≥ 24)
    ∧ prepStart [⟨6, 10⟩, ⟨54, 12⟩] = 1
    ∧ (gridTimes (prepStart [⟨6, 10⟩, ⟨54, 12⟩])).length = 191
    ∧ (191 : ℕ) ≠ 192 :=
  ⟨by decide, by decide, by decide, by decide, by decide⟩

/-- C1 (amended): for every grid start the Grid Builder emits the hours
`start, start+1, ...` up to (excluding) midnight of the eighth day after
the start's day: `192 - (start mod 24)` timestamps, strictly increasing
with no duplicate or skipped hour; the count is 192 exactly when the
start lies on a midnight. -/
theorem C1_grid_builder_amended (start : Int) :
    gridTimes start = (List.range (192 - (start % 24).toNat)).map (fun k : ℕ => start + (k : Int))
    ∧ (gridTimes start).length = 192 - (start % 24).toNat
    ∧ (gridTimes start).Pairwise (· < ·)
    ∧ (∀ t, t ∈ gridTimes start ↔ start ≤ t ∧ t < 24 * (start / 24 + 8))
    ∧ ((gridTimes start).length = 192 ↔ start % 24 = 0) := by
  have h := gridTimes_eq start
  have hlen : (gridTimes start).length = 192 - (start % 24).toNat := by
    rw [h]
    simp
  refine ⟨h, hlen, ?_, ?_, ?_⟩
  · rw [h, List.pairwise_map]
    exact (List.pairwise_lt_range _).imp (fun hab => by omega)
  · intro t
    rw [h]
    constructor
    · intro ht
      rcases List.mem_map.mp ht with ⟨k, hk, rfl⟩
      have := List.mem_range.mp hk
      omega
    · intro ht
      apply List.mem_map.mpr
      refine ⟨(t - start).toNat, List.mem_range.mpr (by omega), by omega⟩
  · rw [hlen]
    omega

/-- C1 witness: the amended statement computed at the midnight start 0. -/
theorem C1_grid_builder_amended_witness :
    (gridTimes 0).length = 192 ∧ (120 : Int) ∈ gridTimes 0 := by
  have h := C1_grid_builder_amended 0
  exact ⟨h.2.2.2.2.mpr (by decide), (h.2.2.2.1 120).mpr (by decide)⟩

/-- C2: whenever `prepare_weather_data` completes it returns exactly
7 * 24 = 168 rows, hourly contiguous and strictly ascending, covering
exactly the 7 calendar days that follow the grid start's day. -/
theorem C2_prepare_output_7x24 (samples : List Sample) (rows : List OutRow)
    (hok : prepare_weather_data samples = Except.ok rows) :
    rows.map (·.time) =
      (List.range 168).map (fun j : ℕ => 24 * (prepStart samples / 24 + 1) + (j : Int))
    ∧ rows.length = 168
    ∧ (rows.map (·.time)).Pairwise (· < ·)
    ∧ ∀ r ∈ rows, prepStart samples / 24 + 1 ≤ dayOf r.time
        ∧ dayOf r.time ≤ prepStart samples / 24 + 7 := by
  have hrows : rows = prepRows samples := by
    unfold prepare_weather_data at hok
    by_cases he : samples.isEmpty
    · rw [if_pos he] at hok
      cases hok
    · rw [if_neg he] at hok
      exact (Except.ok.inj hok).symm
  subst hrows
  have ht := prepRows_times samples
  refine ⟨ht, ?_, ?_, ?_⟩
  · have hlen := congrArg List.length ht
    simpa using hlen
  · rw [ht, List.pairwise_map]
    exact (List.pairwise_lt_range _).imp (fun hab => by omega)
  · intro r hr
    have hmem : r.time ∈ (prepRows samples).map (·.time) := List.mem_map.mpr ⟨r, hr, rfl⟩
    rw [ht] at hmem
    rcases List.mem_map.mp hmem with ⟨j, hj, hjt⟩
    have hj' : j < 168 := List.mem_range.mp hj
    unfold dayOf
    omega

/-- C2 witness: the theorem applied to the concrete one-sample run
(start hour 5, so the output is hours 24..191). -/
theorem C2_prepare_output_7x24_witness :
    (prepRows [⟨10, 7⟩]).map (·.time) =
      (List.range 168).map (fun j : ℕ => 24 * (prepStart [⟨10, 7⟩] / 24 + 1) + (j : Int))
    ∧ (prepRows [⟨10, 7⟩]).length = 168 := by
  have h := C2_prepare_output_7x24 [⟨10, 7⟩] (prepRows [⟨10, 7⟩]) rfl
  exact ⟨h.1, h.2.1⟩

set_option maxRecDepth 400000 in
/-- C3 counterexample: with the single sample at hour 10 the hour-of-day
bucket 4 of the joined grid holds zero known values, yet
`prepare_weather_data` completes normally — it returns a result (no
error of any kind is raised) whose rows carry missing temperatures. -/
theorem C3_no_insufficient_data_error_cex :
    ((joinGrid (prepStart [⟨10, 7⟩]) (shiftHours (resampleHourly [⟨10, 7⟩]))).filter
        (fun r => hourOf r.time == 4)).all (fun r => r.temp.isNone)
    ∧ prepare_weather_data [⟨10, 7⟩] = Except.ok (prepRows [⟨10, 7⟩])
    ∧ (prepRows [⟨10, 7⟩]).any (fun r => r.temp.isNone) :=
  ⟨by decide, rfl, by decide⟩

/-- C3 (amended): an hour-of-day bucket with zero known values after the
join is not an error: the engine leaves every row of such a bucket
missing (it never fills across buckets), and `prepare_weather_data`
completes normally on every non-empty input — no InsufficientDataError
exists in the program. -/
theorem C3_empty_bucket_stays_unfilled :
    (∀ (l : List GridRow) (hh : ℕ),
        (∀ r ∈ l, hourOf r.time = hh → r.temp = none) →
        ∀ r ∈ bucketPass l, hourOf r.time = hh → r.temp = none)
    ∧ ∀ samples : List Sample, samples ≠ [] →
        prepare_weather_data samples = Except.ok (prepRows samples) := by
  constructor
  · exact bucketPass_keeps_empty_bucket
  · intro samples hne
    cases samples with
    | nil => exact absurd rfl hne
    | cons a t => rfl

/-- C3 witness: the amended statement applied to a concrete grid whose
bucket 4 is entirely missing, and to the concrete non-empty run. -/
theorem C3_empty_bucket_stays_unfilled_witness :
    ((bucketPass [⟨4, none⟩, ⟨24, some 1⟩]).filter (fun r => hourOf r.time == 4)).all
      (fun r => r.temp.isNone)
    ∧ prepare_weather_data [⟨10, 7⟩] = Except.ok (prepRows [⟨10, 7⟩]) := by
  have h := C3_empty_bucket_stays_unfilled
  constructor
  · apply List.all_eq_true.mpr
    intro r hr
    have hm := List.mem_filter.mp hr
    have hnone := h.1 [⟨4, none⟩, ⟨24, some 1⟩] 4 (by decide) r hm.1 (by simpa using hm.2)
    simp [hnone]
  · exact h.2 [⟨10, 7⟩] (by decide)

/-- C4: if each of the 24 hour-of-day buckets of a grid holds at least
one known temperature, the Interpolation Engine's output has no missing
temperature in any row. -/
theorem C4_interp_engine_no_missing (l : List GridRow)
    (h : ∀ hh, hh < 24 → ∃ r ∈ l, hourOf r.time = hh ∧ r.temp.isSome) :
    ∀ r ∈ bucketPass l, r.temp.isSome = true :=
  bucketPass_all_some l h

/-- C4 witness: a 24-row grid with one known value per bucket comes out
fully known. -/
theorem C4_interp_engine_no_missing_witness :
    (bucketPass ((List.range 24).map (fun hh : ℕ => ⟨(hh : Int), some 1⟩))).all
      (fun r => r.temp.isSome) := by
  apply List.all_eq_true.mpr
  intro r hr
  exact C4_interp_engine_no_missing _ (by decide) r hr

/-- C5 counterexample: on the empty sample sequence the failure is not an
InputError: `prepare_weather_data` fails with the pandas missing-column
KeyError, and the top-level pipeline just returns an absent result. -/
theorem C5_no_input_error_cex :
    prepare_weather_data [] = Except.error PipelineError.keyError
    ∧ prepare_weather_data [] ≠ Except.error PipelineError.inputError
    ∧ solar_power_forecast [] 100 1000 (fun _ => 0) = none :=
  ⟨rfl, fun h => PipelineError.noConfusion (Except.error.inj h), rfl⟩

/-- C5 (amended): an empty sample sequence does abort the run before any
computation — the top level returns an absent result from its emptiness
guard for every configuration, and a direct `prepare_weather_data` call
fails immediately with the missing-column KeyError — but no dedicated
InputError exists in the program. -/
theorem C5_empty_input_aborts :
    prepare_weather_data [] = Except.error PipelineError.keyError
    ∧ ∀ (capacity maxGhi : ℚ) (model : ModelFeatures → ℚ),
        solar_power_forecast [] capacity maxGhi model = none :=
  ⟨rfl, fun _ _ _ => rfl⟩

/-- C6 counterexample: the spec's tilt test vector fails on the code at
(lat 40, day 200): day 200 lies inside [79, 263], so the first branch
returns the latitude 40, not 25. -/
theorem C6_tilt_test_vector_cex :
    ¬(calculate_optimal_tilt_angle 40 80 = 40
      ∧ calculate_optimal_tilt_angle 40 1 = 55
      ∧ calculate_optimal_tilt_angle 40 200 = 25
      ∧ calculate_optimal_tilt_angle 5 200 = 0) := by
  intro h
  have h200 := h.2.2.1
  norm_num [calculate_optimal_tilt_angle] at h200

/-- C6 (amended): the values the code actually produces: tilt(40,80)=40
and tilt(40,1)=55 as claimed, but tilt(40,200)=40 and tilt(5,200)=5,
because day 200 falls in the first (spring-fall) branch. -/
theorem C6_tilt_values :
    calculate_optimal_tilt_angle 40 80 = 40
    ∧ calculate_optimal_tilt_angle 40 1 = 55
    ∧ calculate_optimal_tilt_angle 40 200 = 40
    ∧ calculate_optimal_tilt_angle 5 200 = 5 := by
  norm_num [calculate_optimal_tilt_angle]

/-- C7: the tilt heuristic returns the latitude on days 79..263, the
latitude + 15 on the wrap-around winter range (day ≥ 356 or day < 79),
and max(latitude - 15, 0) on days 264..355; the day-79 overlap resolves
to the first-listed spring-fall branch, so tilt at day 79 is the
latitude. -/
theorem C7_tilt_branches (lat : ℚ) (d : ℕ) :
    (79 ≤ d → d ≤ 263 → calculate_optimal_tilt_angle lat d = lat)
    ∧ ((356 ≤ d ∨ d < 79) → calculate_optimal_tilt_angle lat d = lat + 15)
    ∧ (263 < d → d < 356 → calculate_optimal_tilt_angle lat d = max (lat - 15) 0)
    ∧ calculate_optimal_tilt_angle lat 79 = lat := by
  unfold calculate_optimal_tilt_angle
  refine ⟨?_, ?_, ?_, ?_⟩
  · intro h1 h2
    rw [if_pos ⟨h1, h2⟩]
  · intro h
    rw [if_neg (by omega), if_pos (by omega)]
  · intro h1 h2
    rw [if_neg (by omega), if_neg (by omega)]
  · norm_num

/-- C7 witness: one concrete day from each of the three branches. -/
theorem C7_tilt_branches_witness :
    calculate_optimal_tilt_angle 40 100 = 40
    ∧ calculate_optimal_tilt_angle 40 30 = 55
    ∧ calculate_optimal_tilt_angle 40 300 = 25 := by
  refine ⟨(C7_tilt_branches 40 100).1 (by norm_num) (by norm_num), ?_, ?_⟩
  · have h := (C7_tilt_branches 40 30).2.1 (Or.inr (by norm_num))
    rw [h]
    norm_num
  · have h := (C7_tilt_branches 40 300).2.2.1 (by norm_num) (by norm_num)
    rw [h, max_eq_left (by norm_num : (0 : ℚ) ≤ 40 - 15)]
    norm_num

/-- C8: every `power` cell equals max(0, ghi_forecasted * ratio) with
ratio = capacity / ceiling, hence is never negative; and for any
physically meaningful configuration (capacity ≥ 0, ceiling > 0) every
row whose forecast irradiance is negative gets exactly zero power. -/
theorem C8_power_clamped (rows : List GhiRow) (capacity maxGhi : ℚ) :
    (∀ r ∈ calculate_power_generation rows capacity maxGhi,
        r.power = max 0 (r.ghi_forecasted * (capacity / maxGhi)) ∧ 0 ≤ r.power)
    ∧ (0 ≤ capacity → 0 < maxGhi →
        ∀ r ∈ calculate_power_generation rows capacity maxGhi,
          r.ghi_forecasted < 0 → r.power = 0) := by
  have hmem : ∀ r ∈ calculate_power_generation rows capacity maxGhi,
      ∃ r0 ∈ rows, r.ghi_forecasted = r0.ghi_forecasted ∧
        r.power = if r0.ghi_forecasted * (capacity / maxGhi) < 0 then 0
                  else r0.ghi_forecasted * (capacity / maxGhi) := by
    intro r hr
    simp only [calculate_power_generation] at hr
    rcases List.mem_map.mp hr with ⟨r1, hr1, rfl⟩
    rcases List.mem_map.mp hr1 with ⟨r0, hr0, rfl⟩
    exact ⟨r0, hr0, rfl, rfl⟩
  constructor
  · intro r hr
    rcases hmem r hr with ⟨r0, _, hghi, hpow⟩
    have hmax : r.power = max 0 (r.ghi_forecasted * (capacity / maxGhi)) := by
      rw [hpow, hghi]
      by_cases hp : r0.ghi_forecasted * (capacity / maxGhi) < 0
      · rw [if_pos hp]
        exact (max_eq_left hp.le).symm
      · rw [if_neg hp]
        exact (max_eq_right (not_lt.mp hp)).symm
    exact ⟨hmax, hmax ▸ le_max_left 0 _⟩
  · intro hcap hceil r hr hneg
    rcases hmem r hr with ⟨r0, _, hghi, hpow⟩
    have hratio : 0 ≤ capacity / maxGhi := div_nonneg hcap hceil.le
    have hp : r0.ghi_forecasted * (capacity / maxGhi) ≤ 0 :=
      mul_nonpos_iff.mpr (Or.inr ⟨(hghi ▸ hneg).le, hratio⟩)
    rw [hpow]
    by_cases hlt : r0.ghi_forecasted * (capacity / maxGhi) < 0
    · rw [if_pos hlt]
    · rw [if_neg hlt]
      exact le_antisymm hp (not_lt.mp hlt)

/-- C8 witness: a row forecast at ghi -1 with capacity 100 and ceiling
1000 lands in the output with power exactly 0. -/
theorem C8_power_clamped_witness :
    (⟨0, none, none, none, none, none, -1, 0⟩ : PowRow).power = 0
    ∧ (⟨0, none, none, none, none, none, -1, 0⟩ : PowRow) ∈
        calculate_power_generation [⟨0, none, none, none, none, none, -1⟩] 100 1000 := by
  have hcond : (-1 : ℚ) * (100 / 1000) < 0 := by norm_num
  have hval : calculate_power_generation [⟨0, none, none, none, none, none, -1⟩] 100 1000 =
      [⟨0, none, none, none, none, none, -1, 0⟩] := by
    simp only [calculate_power_generation, List.map_cons, List.map_nil]
    rw [if_pos hcond]
  have hm : (⟨0, none, none, none, none, none, -1, 0⟩ : PowRow) ∈
      calculate_power_generation [⟨0, none, none, none, none, none, -1⟩] 100 1000 := by
    rw [hval]
    exact List.mem_singleton.mpr rfl
  refine ⟨?_, hm⟩
  exact (C8_power_clamped [⟨0, none, none, none, none, none, -1⟩] 100 1000).2
    (by norm_num) (by norm_num) _ hm (by norm_num)

/-- C9: on a strictly ascending grid that already has no missing
temperature, the Interpolation Engine returns its input unchanged: same
rows, same temperatures, same chronological order. -/
theorem C9_interp_engine_identity_on_gapfree (l : List GridRow)
    (hsort : l.Pairwise (fun a b => a.time < b.time))
    (hfull : ∀ r ∈ l, r.temp.isSome) :
    bucketPass l = l :=
  bucketPass_id l hsort hfull

/-- C9 witness: a concrete gap-free three-row grid passes through
unchanged. -/
theorem C9_interp_engine_identity_on_gapfree_witness :
    bucketPass [⟨0, some 1⟩, ⟨1, some 2⟩, ⟨25, some 3⟩] =
      [⟨0, some 1⟩, ⟨1, some 2⟩, ⟨25, some 3⟩] :=
  C9_interp_engine_identity_on_gapfree _ (by decide) (by decide)

/-- C10: `predict_ghi` and `calculate_power_generation` are
frame-preserving: each appends exactly its one new column, and erasing
that column restores the input table — same rows, same order, every
pre-existing column untouched. -/
theorem C10_stages_frame_preserving (model : ModelFeatures → ℚ) (rows : List OutRow)
    (rows2 : List GhiRow) (capacity maxGhi : ℚ) :
    (predict_ghi model rows).map
        (fun r => (⟨r.time, r.temp, r.max_temp, r.min_temp, r.avg_temp, r.temp_diff⟩ : OutRow))
      = rows
    ∧ (calculate_power_generation rows2 capacity maxGhi).map
        (fun r => (⟨r.time, r.temp, r.max_temp, r.min_temp, r.avg_temp, r.temp_diff,
            r.ghi_forecasted⟩ : GhiRow)) = rows2 := by
  constructor
  · unfold predict_ghi
    rw [List.map_map]
    exact List.map_id' rows
  · simp only [calculate_power_generation]
    rw [List.map_map, List.map_map]
    exact List.map_id' rows2

end Solar
